import Mathlib

/-!
# Verification of the deej volume-control core

A shallow embedding, over exact rationals, of the slider-to-volume pipeline:
the serial line decoder (`serial.go`), the numeric utilities (`util/util.go`),
the slider-mapping merge (`slider_map.go`, `config.go`) and the session
registry (`refreshSessions`, `getAndAddSessions`, `sessionMapped`, target
resolution).

Machine floating point (Go `float32` / `float64`) is modelled exactly:
every float value is represented by the rational it denotes, and every
float operation applies IEEE-754 round-to-nearest-even at the format's
precision (24 or 53 significand bits).  All values arising in this
development lie well inside the normal range of both formats, so the
unbounded-exponent model below coincides with IEEE semantics on them
(no overflow, no subnormals, no NaN).

Rational arithmetic is written through kernel-reducible helpers
(`qadd`, `qsub`, `qmul`, `qdiv`, …) built on `mkRat` and integer
operations; the lemmas `qadd_eq`, `qsub_eq`, `qmul_eq`, `qdiv_eq` prove
they agree with the ordinary field operations on `ℚ`.
-/

/-! ## Kernel-reducible rational arithmetic -/

/-- Addition on `ℚ` in `mkRat` form (agrees with `+` by `qadd_eq`). -/
def qadd (a b : ℚ) : ℚ := mkRat (a.num * b.den + b.num * a.den) (a.den * b.den)

/-- Subtraction on `ℚ` in `mkRat` form (agrees with `-` by `qsub_eq`). -/
def qsub (a b : ℚ) : ℚ := mkRat (a.num * b.den - b.num * a.den) (a.den * b.den)

/-- Multiplication on `ℚ` in `mkRat` form (agrees with `*` by `qmul_eq`). -/
def qmul (a b : ℚ) : ℚ := mkRat (a.num * b.num) (a.den * b.den)

/-- Division on `ℚ` in `mkRat` form (agrees with `/` by `qdiv_eq`). -/
def qdiv (a b : ℚ) : ℚ := qmul a (Rat.divInt b.den b.num)

/-- Absolute value on `ℚ` (agrees with `|·|` by `qabs_eq`). -/
def qabs (a : ℚ) : ℚ := if a.num < 0 then -a else a

/-- Boolean `≤` on `ℚ` by cross-multiplication (agrees with `≤` by `qle_iff`). -/
def qle (a b : ℚ) : Bool := decide (a.num * (b.den : ℤ) ≤ b.num * (a.den : ℤ))

/-- Boolean `<` on `ℚ` by cross-multiplication (agrees with `<` by `qlt_iff`). -/
def qlt (a b : ℚ) : Bool := decide (a.num * (b.den : ℤ) < b.num * (a.den : ℤ))

theorem qadd_eq (a b : ℚ) : qadd a b = a + b := (Rat.add_def' a b).symm

theorem qsub_eq (a b : ℚ) : qsub a b = a - b := (Rat.sub_def' a b).symm

theorem qmul_eq (a b : ℚ) : qmul a b = a * b := by
  rw [qmul, Rat.mul_def, Rat.normalize_eq_mkRat]

theorem qdiv_eq (a b : ℚ) : qdiv a b = a / b := by
  rw [qdiv, Rat.div_def, Rat.inv_def, qmul_eq]

theorem qle_iff (a b : ℚ) : qle a b = true ↔ a ≤ b := by
  rw [qle, decide_eq_true_eq]
  conv_rhs => rw [← Rat.num_divInt_den a, ← Rat.num_divInt_den b]
  rw [Rat.divInt_le_divInt (by exact_mod_cast a.den_pos) (by exact_mod_cast b.den_pos)]

theorem qlt_iff (a b : ℚ) : qlt a b = true ↔ a < b := by
  rw [lt_iff_not_le, ← qle_iff b a]
  simp only [qle, qlt, decide_eq_true_eq]
  exact not_le.symm

theorem qabs_eq (a : ℚ) : qabs a = |a| := by
  rw [qabs]
  rcases lt_or_le a.num 0 with h | h
  · rw [if_pos h, abs_of_neg (Rat.num_neg.mp h)]
  · rw [if_neg (not_lt.mpr h), abs_of_nonneg (Rat.num_nonneg.mp h)]

/-! ## Exact model of IEEE rounding -/

/-- Round a rational to the nearest integer, ties to even, via integer
arithmetic on the reduced numerator and denominator. -/
def roundHalfEven (x : ℚ) : ℤ :=
  let f := x.floor
  let twice := 2 * (x.num - f * x.den)
  if twice < (x.den : ℤ) then f
  else if (x.den : ℤ) < twice then f + 1
  else if f % 2 = 0 then f else f + 1

/-- Floor of base-2 logarithm of a positive natural, by fuelled halving. -/
def natLog2F : ℕ → ℕ → ℕ
  | 0, _ => 0
  | fuel + 1, n => if n ≤ 1 then 0 else natLog2F fuel (n / 2) + 1

/-- Is `2^e ≤ a/b`, for naturals `a b ≥ 1`, decided by integer comparison. -/
def pow2le (e : ℤ) (a b : ℕ) : Bool :=
  if 0 ≤ e then decide (2 ^ e.toNat * b ≤ a) else decide (b ≤ a * 2 ^ (-e).toNat)

/-- `⌊log₂ q⌋` for a positive rational `q`: the unique `e` with `2^e ≤ q < 2^(e+1)`. -/
def ratExp (q : ℚ) : ℤ :=
  let a := q.num.toNat
  let b := q.den
  let e0 : ℤ := (natLog2F a a : ℤ) - (natLog2F b b : ℤ)
  if pow2le e0 a b then e0 else e0 - 1

/-- `m * 2^t` as a rational, for an integer (possibly negative) exponent `t`. -/
def scale2Int (m t : ℤ) : ℚ :=
  if 0 ≤ t then mkRat (m * 2 ^ t.toNat) 1 else mkRat m (2 ^ (-t).toNat)

/-- `q * 2^s` for an integer (possibly negative) exponent `s`. -/
def scale2 (q : ℚ) (s : ℤ) : ℚ :=
  if 0 ≤ s then mkRat (q.num * 2 ^ s.toNat) q.den
  else mkRat q.num (q.den * 2 ^ (-s).toNat)

/-- Round-to-nearest-even of a positive rational at `p` significand bits:
with `e = ⌊log₂ q⌋`, the significand `q·2^(p-1-e) ∈ [2^(p-1), 2^p)` is rounded
to the nearest integer (ties to even) and scaled back. -/
def froundPos (p : ℕ) (q : ℚ) : ℚ :=
  let e : ℤ := ratExp q
  let s : ℤ := (p : ℤ) - 1 - e
  scale2Int (roundHalfEven (scale2 q s)) (-s)

/-- IEEE round-to-nearest-even at `p` significand bits, unbounded exponent. -/
def fround (p : ℕ) (q : ℚ) : ℚ :=
  if q.num < 0 then -froundPos p (-q)
  else if q.num = 0 then 0
  else froundPos p q

/-- The `float32` value denoted by rounding an exact rational (24-bit significand). -/
def f32 (q : ℚ) : ℚ := fround 24 q

/-- The `float64` value denoted by rounding an exact rational (53-bit significand). -/
def f64 (q : ℚ) : ℚ := fround 53 q

example : f32 (mkRat 21 40) = mkRat 4404019 8388608 := by decide
example : f64 (mkRat 25 1000) = mkRat 3602879701896397 144115188075855872 := by decide
example : f32 (mkRat 1 2) = mkRat 1 2 := by decide
example : f32 0 = 0 := by decide
example : f32 (-(mkRat 21 40)) = -(mkRat 4404019 8388608) := by decide

/-! ## util/util.go -/

/-- Embeds `getSignificantDifferenceThreshold` (util.go:95-108): the `float64`
threshold constant selected by the noise-reduction level; any unrecognized
level falls through to the default 0.025. -/
def getSignificantDifferenceThreshold (noiseReductionLevel : String) : ℚ :=
  if noiseReductionLevel = "high" then f64 (mkRat 35 1000)
  else if noiseReductionLevel = "low" then f64 (mkRat 15 1000)
  else f64 (mkRat 25 1000)

/-- Embeds `almostEquals` (util.go:79-81): `math.Abs(float64(a-b)) < 0.000001`,
where `a - b` is a `float32` subtraction (exactly `f32` of the exact
difference) and `0.000001` is a `float64` constant; the widening to `float64`
and `math.Abs` are exact. -/
def almostEquals (a b : ℚ) : Bool :=
  qlt (qabs (f32 (qsub a b))) (f64 (mkRat 1 1000000))

/-- Embeds `SignificantlyDifferent` (util.go:66-76): significant when the
`float64` image of the `float32` difference `old - new` meets the threshold,
or when the new value is almost at an edge (1.0 or 0.0) that the old value
was not exactly at.  The comparisons `old != 1.0` / `old != 0.0` are exact
equality tests on float values. -/
def SignificantlyDifferent (old new : ℚ) (noiseReductionLevel : String) : Bool :=
  let threshold := getSignificantDifferenceThreshold noiseReductionLevel
  if qle threshold (qabs (f32 (qsub old new))) then true
  else if (almostEquals new 1 && !(decide (old = 1))) ||
          (almostEquals new 0 && !(decide (old = 0))) then true
  else false

/-- Embeds `NormalizeScalar` (util.go:60-62):
`float32(math.Floor(float64(v)*100) / 100.0)`.  The widening of the `float32`
argument is exact; `*100` and `/100.0` round at `float64`; `math.Floor` is
exact (its result is an integer of magnitude far below 2^53); the final
conversion rounds to `float32`. -/
def NormalizeScalar (v : ℚ) : ℚ :=
  f32 (f64 (mkRat (f64 (qmul v 100)).floor 100))

/-- The normalized value computed for one slider in `processLine`
(serial.go:200): `util.NormalizeScalar(float32(rawValue) / 1023.0)` — a
`float32` division of the exact integer `rawValue` by 1023, then
`NormalizeScalar`. -/
def normalizeRaw (raw : ℕ) : ℚ :=
  NormalizeScalar (f32 (qdiv (mkRat raw 1) 1023))

example : normalizeRaw 512 = mkRat 1 2 := by decide
example : normalizeRaw 1023 = 1 := by decide
example : normalizeRaw 0 = 0 := by decide
example : normalizeRaw 511 = f32 (f64 (mkRat 49 100)) := by decide
example : SignificantlyDifferent (f32 (mkRat 1 2)) (f32 (mkRat 21 40)) "default" = false := by decide
example : SignificantlyDifferent (f32 (mkRat 1 2)) (f32 (mkRat 1050 2000)) "low" = true := by decide
example : SignificantlyDifferent (f32 (mkRat 99 100)) 1 "high" = true := by decide
example : SignificantlyDifferent 1 1 "low" = false := by decide
example : SignificantlyDifferent (-1) (mkRat 1 2) "high" = true := by decide

/-! ## serial.go — the line decoder -/

/-- One slider movement event (serial.go:39-42). -/
structure SliderMoveEvent where
  sliderID : ℕ
  percentValue : ℚ
  deriving DecidableEq, Repr

/-- The decoder's configuration fields read in `processLine`
(config.go: `InvertSliders`, `NoiseReductionLevel`). -/
structure DecoderConfig where
  invertSliders : Bool
  noiseReductionLevel : String
  deriving DecidableEq, Repr

/-- The decoder's mutable state (serial.go:32-33): the last-seen field count
and the cached last-known per-slider values. -/
structure SerialState where
  lastKnownNumSliders : ℕ
  currentSliderPercentValues : List ℚ
  deriving DecidableEq, Repr

/-- Split a character list on a separator character, like Go's
`strings.Split` with a one-character separator: `"a||b"` gives
`["a","","b"]` and `""` gives `[""]`. -/
def splitOnChar (sep : Char) : List Char → List (List Char)
  | [] => [[]]
  | c :: rest =>
    let r := splitOnChar sep rest
    if c = sep then [] :: r
    else (c :: r.headD []) :: r.tail

/-- Digits of a natural number accumulate left-to-right. -/
def digitsToNat : List Char → ℕ → ℕ
  | [], acc => acc
  | c :: rest, acc => digitsToNat rest (acc * 10 + (c.toNat - '0'.toNat))

/-- Embeds Go's `strconv.Atoi` on a character list: an optional sign followed
by at least one decimal digit; anything else is an error (`none`).  (Go also
errors on values overflowing a machine int; the inputs in this development
are at most four digits, far below that bound.) -/
def goAtoi (s : List Char) : Option ℤ :=
  let digits : List Char → Option ℤ := fun cs =>
    if cs.isEmpty then none
    else if cs.all Char.isDigit then some (digitsToNat cs 0) else none
  match s with
  | '+' :: rest => digits rest
  | '-' :: rest => (digits rest).map (fun n => -n)
  | cs => digits cs

/-- Does a whole line match `expectedLinePattern` (serial.go:44), the regular
expression `^\d{1,4}(\|\d{1,4})*\r\n$`: fields of one to four digits separated
by `|`, terminated by a carriage return and newline.  A line matches exactly
when it ends in `"\r\n"` and, stripping those two characters, every
`|`-separated field is one to four digits (a field containing `\r`, `\n`, or
nothing fails the digit test, so no other decomposition can match). -/
def expectedLinePattern (line : String) : Bool :=
  let cs := line.data
  (cs.reverse.take 2 = ['\n', '\r']) &&
  ((splitOnChar '|' (cs.dropLast.dropLast)).all fun field =>
    1 ≤ field.length && field.length ≤ 4 && field.all Char.isDigit)

/-- Embeds the per-field loop of `processLine` (serial.go:192-209) over the
already-split field list.  The Go loop mutates
`sio.currentSliderPercentValues` in place and returns early — discarding the
collected `events` — as soon as a field fails to parse or exceeds 1023, so
cache updates made for earlier fields survive an abort.  `Atoi` is applied to
the raw field text, which for the final field still carries the `"\r\n"`
terminator (the line is split before any trimming). -/
def processFields (cfg : DecoderConfig) :
    SerialState → List (List Char) → ℕ → List SliderMoveEvent →
    SerialState × List SliderMoveEvent
  | st, [], _, events => (st, events)
  | st, v :: rest, i, events =>
    match goAtoi v with
    | none => (st, [])
    | some raw =>
      if 1023 < raw then (st, [])
      else
        let scaled := NormalizeScalar (f32 (qdiv (mkRat raw 1) 1023))
        let scaled := if cfg.invertSliders then f32 (qsub 1 scaled) else scaled
        if SignificantlyDifferent (st.currentSliderPercentValues.getD i 0) scaled
            cfg.noiseReductionLevel then
          processFields cfg
            { st with currentSliderPercentValues :=
                st.currentSliderPercentValues.set i scaled }
            rest (i + 1) (events ++ [⟨i, scaled⟩])
        else
          processFields cfg st rest (i + 1) events

/-- Embeds `processLine` (serial.go:175-216).  A line failing
`expectedLinePattern` is dropped.  A field count differing from the last seen
count resets every cached value to the sentinel `-1.0` before the field loop.
Events are delivered to consumers only after the whole loop finishes; the
returned list is empty whenever the loop aborted on an invalid field.  (The
Go code indexes `currentSliderPercentValues[i]` only for `i` below the field
count, which equals the cache length whenever the loop runs, so the `getD`
default in `processFields` is never consulted.) -/
def processLine (cfg : DecoderConfig) (st : SerialState) (line : String) :
    SerialState × List SliderMoveEvent :=
  if !(expectedLinePattern line) then (st, [])
  else
    let values := splitOnChar '|' line.data
    let numSliders := values.length
    let st' :=
      if numSliders ≠ st.lastKnownNumSliders then
        { lastKnownNumSliders := numSliders,
          currentSliderPercentValues := List.replicate numSliders (-1 : ℚ) }
      else st
    processFields cfg st' values 0 []

/-- Embeds the line handling of `readLoop` (serial.go:163-169): the raw line
(read up to and including the newline) has a `"\r\n"` suffix removed by
`strings.TrimSuffix` before being passed to `processLine`. -/
def readLoopStep (cfg : DecoderConfig) (st : SerialState) (line : String) :
    SerialState × List SliderMoveEvent :=
  processLine cfg st
    (if line.data.reverse.take 2 = ['\n', '\r']
     then ⟨line.data.dropLast.dropLast⟩ else line)

example : expectedLinePattern "512|1023\r\n" = true := by decide
example : expectedLinePattern "512|1023" = false := by decide
example : expectedLinePattern "512|10234\r\n" = false := by decide
example : goAtoi "512".data = some 512 := by decide
example : goAtoi "1023\r\n".data = none := by decide
example : goAtoi "-7".data = some (-7) := by decide
example : goAtoi "".data = none := by decide

/-! ## slider_map.go and config.go -/

/-- The slider mapping (slider_map.go:11-14): a map from slider index to an
ordered target list.  Go's `map[int][]string` is modelled as an association
list in insertion order with unique keys. -/
structure SliderMap where
  entries : List (ℤ × List String)
  deriving DecidableEq, Repr

/-- Embeds `sliderMap.get` (slider_map.go:71-77): the target list for a key,
and whether it was present. -/
def SliderMap.get (m : SliderMap) (key : ℤ) : Option (List String) :=
  (m.entries.find? (fun kv => kv.1 = key)).map (·.2)

/-- Embeds `sliderMap.set` (slider_map.go:80-85): update the key in place or
append a new binding. -/
def SliderMap.set (m : SliderMap) (key : ℤ) (value : List String) : SliderMap :=
  if (m.entries.find? (fun kv => kv.1 = key)).isSome then
    ⟨m.entries.map fun kv => if kv.1 = key then (key, value) else kv⟩
  else ⟨m.entries ++ [(key, value)]⟩

/-- Embeds `sliderMapFromConfigs` (slider_map.go:24-58).  The two
configuration maps are modelled as association lists processed in list order
(Go map iteration order is unspecified; for the distinct parsed keys of a
well-formed configuration the resulting map does not depend on it).  User
targets are copied with empty strings filtered out; internal targets are
appended when nonempty and not already present; keys that `strconv.Atoi`
rejects are skipped. -/
def sliderMapFromConfigs (userMapping internalMapping : List (String × List String)) :
    SliderMap :=
  let afterUser := userMapping.foldl (fun acc kv =>
    match goAtoi kv.1.data with
    | none => acc
    | some sliderIdx => acc.set sliderIdx (kv.2.filter (fun s => s ≠ ""))) ⟨[]⟩
  internalMapping.foldl (fun acc kv =>
    match goAtoi kv.1.data with
    | none => acc
    | some sliderIdx =>
      let existingTargets := (acc.get sliderIdx).getD []
      let filteredTargets := kv.2.filter
        (fun s => s ≠ "" && !(existingTargets.contains s))
      acc.set sliderIdx (existingTargets ++ filteredTargets)) afterUser

/-- Embeds the `defaultSliderMapping` package variable (config.go:61-65),
documented as "Default slider mapping when no configuration is provided":
a single binding of slider 0 to `["master"]`.  (No other code in the
repository reads this variable.) -/
def defaultSliderMapping : SliderMap := (SliderMap.mk []).set 0 ["master"]

/-- The default value that `initializeViperInstances` (config.go:85-93)
registers for the `slider_mapping` key of the user configuration:
`map[string][]string{}`, the empty map. -/
def userSliderMappingDefault : List (String × List String) := []

/-- Embeds the `SliderMapping` computation of `populateFromVipers`
(config.go:157-161): `sliderMapFromConfigs` applied to the `slider_mapping`
values of the user and internal viper instances.  A viper instance returns
the configured value when one was supplied and the registered default
otherwise; the internal config registers no defaults, so an absent internal
`slider_mapping` reads as the empty map. -/
def populateSliderMapping (userConfigured internalConfigured :
    Option (List (String × List String))) : SliderMap :=
  sliderMapFromConfigs (userConfigured.getD userSliderMappingDefault)
    (internalConfigured.getD [])

example : (sliderMapFromConfigs [("0", ["a", ""])] [("0", ["b"])]).get 0 =
    some ["a", "b"] := by decide
example : populateSliderMapping none none = ⟨[]⟩ := by decide
example : defaultSliderMapping.get 0 = some ["master"] := by decide

/-! ## The session registry (`sessionMap`) -/

/-- A discovered audio session, exposed to the registry through the `Session`
capability interface (session.go:10-26): a stable lowercase key and a
volume.  Volume manipulation is outside the claims verified here. -/
structure Session where
  key : String
  volume : ℚ
  deriving DecidableEq, Repr

/-- `minTimeBetweenSessionRefreshes = time.Second * 5`, in nanoseconds
(Go `time.Duration` units). -/
def minTimeBetweenSessionRefreshes : ℤ := 5 * 1000000000

/-- `maxTimeBetweenSessionRefreshes = time.Second * 45`, in nanoseconds. -/
def maxTimeBetweenSessionRefreshes : ℤ := 45 * 1000000000

/-- The collaborators the registry consults while classifying sessions: the
current `SliderMapping` from the configuration, and the result of the
foreground-window query `util.GetCurrentWindowProcessNames` (`none` models
the error case). -/
structure SessionEnv where
  sliderMapping : SliderMap
  currentWindowProcessNames : Option (List String)
  deriving DecidableEq, Repr

/-- The registry's mutable state: the key → sessions map (association
list in insertion order, like the Go `map[string][]Session` up to iteration
order), the last refresh timestamp in nanoseconds, and the sessions recorded
as unmapped at the last population. -/
structure SessionMapState where
  m : List (String × List Session)
  lastSessionRefresh : ℤ
  unmappedSessions : List Session
  deriving DecidableEq, Repr

/-- ASCII lowercasing of a string, as `strings.ToLower` acts on the ASCII
strings relevant here (Go lowercases full Unicode; all keys and targets in
the claims are ASCII). -/
def toLowerStr (s : String) : String := ⟨s.data.map Char.toLower⟩

/-- Embeds `targetHasSpecialTransform`: `strings.HasPrefix(target, "deej.")`. -/
def targetHasSpecialTransform (target : String) : Bool :=
  decide (target.data.take 5 = ['d', 'e', 'e', 'j', '.'])

/-- Embeds `funk.UniqString`: unique strings, keeping first occurrences in
order. -/
def uniqString (l : List String) : List String :=
  l.foldl (fun acc s => if acc.contains s then acc else acc ++ [s]) []

/-- Embeds `getCurrentWindowProcessNames`: on query error, log and return
nil; otherwise lowercase every name and deduplicate. -/
def getCurrentWindowProcessNames (env : SessionEnv) : List String :=
  match env.currentWindowProcessNames with
  | none => []
  | some names => uniqString (names.map toLowerStr)

/-- Embeds `getUnmappedSessionKeys`: the keys of the sessions recorded as
unmapped at the last population. -/
def getUnmappedSessionKeys (st : SessionMapState) : List String :=
  st.unmappedSessions.map (·.key)

/-- Embeds `applyTargetTransform`: `current` and `unmapped` are the only
transforms; any other suffix resolves to nil. -/
def applyTargetTransform (env : SessionEnv) (st : SessionMapState)
    (specialTargetName : String) : List String :=
  if specialTargetName = "current" then getCurrentWindowProcessNames env
  else if specialTargetName = "unmapped" then getUnmappedSessionKeys st
  else []

/-- Embeds `resolveTarget`: lowercase the target; a `deej.`-prefixed result
goes through `applyTargetTransform` on the suffix (`strings.TrimPrefix`
removes the five-character prefix), anything else resolves to itself. -/
def resolveTarget (env : SessionEnv) (st : SessionMapState) (target : String) :
    List String :=
  let t := toLowerStr target
  if targetHasSpecialTransform t then
    applyTargetTransform env st ⟨t.data.drop 5⟩
  else [t]

/-- Everything after the matched `" ("` must be a nonempty, newline-free
run of characters followed by the final `")"`. -/
def middleOk (cs : List Char) : Bool :=
  match cs.reverse with
  | ')' :: b => !b.isEmpty && b.all (· ≠ '\n')
  | _ => false

/-- Scan for a decomposition `prefix ++ " (" ++ middle ++ ")"` with nonempty
prefix and middle; the flag records whether a nonempty (necessarily
newline-free) prefix has been consumed.  A newline anywhere aborts: `.`
matches every character except newline, so no decomposition can cover one. -/
def deviceScan : Bool → List Char → Bool
  | hasPre, ' ' :: '(' :: rest =>
    (hasPre && middleOk rest) || deviceScan true ('(' :: rest)
  | _, '\n' :: _ => false
  | _, _ :: rest => deviceScan true rest
  | _, [] => false

/-- Embeds `deviceSessionKeyPattern`, the regular expression
`^.+ \(.+\)$` used on session keys: some nonempty newline-free prefix, a
literal `" ("`, some nonempty newline-free middle, and a final `")"`. -/
def deviceSessionKeyPattern (s : String) : Bool := deviceScan false s.data

/-- The per-slider closure body in `sessionMapped`: walk a target list,
skipping targets with the special transform prefix; otherwise the Go code
indexes `m.resolveTarget(target)[0]`, which panics when the resolution is
empty (`none` models that panic; it arises only for targets whose
lowercasing introduces the `deej.` prefix the pre-lowercasing skip did not
see).  The closure returns at the first match. -/
def sessionMappedTargets (env : SessionEnv) (st : SessionMapState)
    (key : String) : List String → Option Bool
  | [] => some false
  | target :: rest =>
    if targetHasSpecialTransform target then sessionMappedTargets env st key rest
    else
      match resolveTarget env st target with
      | [] => none
      | resolvedTarget :: _ =>
        if resolvedTarget = key then some true
        else sessionMappedTargets env st key rest

/-- Embeds `sessionMapped`: reserved names and device-pattern keys count as
mapped; otherwise iterate every slider's target list (the whole mapping is
traversed; a match only sets the flag).  `none` propagates a panic from an
empty `[0]` index. -/
def sessionMapped (env : SessionEnv) (st : SessionMapState) (session : Session) :
    Option Bool :=
  if ["master", "system", "mic"].contains session.key then some true
  else if deviceSessionKeyPattern session.key then some true
  else
    env.sliderMapping.entries.foldl
      (fun acc kv =>
        match acc with
        | none => none
        | some matchFound =>
          match sessionMappedTargets env st session.key kv.2 with
          | none => none
          | some f => some (matchFound || f))
      (some false)

/-- Embeds `sessionMap.add`: append the session to its key's list, creating
the binding if absent. -/
def sessionMapAdd (m : List (String × List Session)) (s : Session) :
    List (String × List Session) :=
  if (m.find? (fun kv => kv.1 = s.key)).isSome then
    m.map fun kv => if kv.1 = s.key then (kv.1, kv.2 ++ [s]) else kv
  else m ++ [(s.key, [s])]

/-- Embeds `sessionMap.get`: the sessions for a key and whether the key was
present (`none` is Go's `ok = false`). -/
def sessionMapGet (st : SessionMapState) (key : String) : Option (List Session) :=
  (st.m.find? (fun kv => kv.1 = key)).map (·.2)

/-- Embeds `sessionMap.clear`: release every session and empty the map. -/
def sessionMapClear (st : SessionMapState) : SessionMapState := { st with m := [] }

/-- The session loop of `getAndAddSessions`: add each discovered session to
the map and record it as unmapped when `sessionMapped` says so.  (The
classification runs against the state as mutated so far, which
`sessionMapped` only reads through `resolveTarget`.) -/
def classifySessions (env : SessionEnv) :
    SessionMapState → List Session → Option SessionMapState
  | st, [] => some st
  | st, s :: rest =>
    let st1 := { st with m := sessionMapAdd st.m s }
    match sessionMapped env st1 s with
    | none => none
    | some true => classifySessions env st1 rest
    | some false =>
      classifySessions env
        { st1 with unmappedSessions := st1.unmappedSessions ++ [s] } rest

/-- Embeds `getAndAddSessions`: stamp the refresh time and reset the
unmapped list before anything else; then query the discovery collaborator
(`fetched = none` models a `GetAllSessions` error, in which case the
function logs, leaves the map untouched and returns the error — the second
component `true`); on success classify every returned session. -/
def getAndAddSessions (env : SessionEnv) (now : ℤ)
    (fetched : Option (List Session)) (st : SessionMapState) :
    Option (SessionMapState × Bool) :=
  let st0 := { st with lastSessionRefresh := now, unmappedSessions := [] }
  match fetched with
  | none => some (st0, true)
  | some sessions =>
    match classifySessions env st0 sessions with
    | none => none
    | some st1 => some (st1, false)

/-- Embeds `refreshSessions` (with `now` and the discovery result passed
explicitly): when not forced and the previous refresh is younger than
`minTimeBetweenSessionRefreshes`, do nothing; otherwise clear the map and
run `getAndAddSessions`.  The second component reports whether a discovery
query was performed; `none` propagates a panic. -/
def refreshSessions (env : SessionEnv) (now : ℤ)
    (fetched : Option (List Session)) (force : Bool) (st : SessionMapState) :
    Option (SessionMapState × Bool) :=
  if !force && decide (now < st.lastSessionRefresh + minTimeBetweenSessionRefreshes)
  then some (st, false)
  else
    match getAndAddSessions env now fetched (sessionMapClear st) with
    | none => none
    | some (st1, _) => some (st1, true)

/-- The unmapped-session characterization stated by the specification (its
"Resolution" property): a key counts as mapped exactly when it is one of the
reserved names `master`/`system`/`mic`, matches the device display-name
pattern, or equals the lowercasing of some configured target that is not
`deej.`-prefixed, anywhere in the current `SliderMapping`. -/
def claimMapped (mapping : SliderMap) (key : String) : Bool :=
  ["master", "system", "mic"].contains key ||
  deviceSessionKeyPattern key ||
  mapping.entries.any (fun kv => kv.2.any (fun t =>
    !(targetHasSpecialTransform t) && toLowerStr t = key))

example : deviceSessionKeyPattern "speakers (realtek audio)" = true := by decide
example : deviceSessionKeyPattern "chrome.exe" = false := by decide
example : deviceSessionKeyPattern " (x)" = false := by decide
example : deviceSessionKeyPattern "a ()" = false := by decide
example : toLowerStr "Chrome.EXE" = "chrome.exe" := by decide
example : targetHasSpecialTransform "deej.unmapped" = true := by decide
example : resolveTarget ⟨⟨[]⟩, none⟩ ⟨[], 0, [⟨"spotify.exe", 1⟩]⟩ "deej.unmapped"
    = ["spotify.exe"] := by decide

/-! ## Claim theorems -/

/-- Whatever the noise-reduction string, the threshold is one of the three
constants (util.go:95-108). -/
theorem thresholdCases (level : String) :
    getSignificantDifferenceThreshold level = f64 (mkRat 35 1000) ∨
    getSignificantDifferenceThreshold level = f64 (mkRat 15 1000) ∨
    getSignificantDifferenceThreshold level = f64 (mkRat 25 1000) := by
  unfold getSignificantDifferenceThreshold
  split_ifs <;> simp

/-- C1: For the serial line `"512|1023\r\n"` the decoder emits no event at
all — not the two events the specification requires.  `readLoop` trims the
`"\r\n"` suffix before calling `processLine`, whose pattern still demands a
`"\r\n"` terminator, so the trimmed line is dropped (first conjunct, state
untouched); and even handed the untrimmed line, `processLine` splits before
trimming, so the final field `"1023\r\n"` fails `strconv.Atoi` and the line
aborts with no events (second conjunct).  With no slider-move events, the
registry never receives the 0.50/1.00 volume applications. -/
theorem C1_endToEnd_noEvents :
    readLoopStep ⟨false, "default"⟩ ⟨0, []⟩ "512|1023\r\n" = (⟨0, []⟩, []) ∧
    (processLine ⟨false, "default"⟩ ⟨0, []⟩ "512|1023\r\n").2 = [] := by
  decide

/-- C8: A field-count change does reset every cached value to the sentinel
`-1.0`, and a change from `-1.0` to a normalized value is significant at
every noise level (first conjunct, for the two values of the test line); but
the first post-reset report fires no events: on the line `"512|1023\r\n"`
from a fresh decoder the reset happens (slot 1 still holds `-1`), slider 0's
cache is overwritten to 0.50, and the event list is empty because the final
field `"1023\r\n"` aborts the line. -/
theorem C8_reset_fires_no_events :
    (∀ level : String,
        SignificantlyDifferent (-1) (mkRat 1 2) level = true ∧
        SignificantlyDifferent (-1) 1 level = true) ∧
    processLine ⟨false, "default"⟩ ⟨0, []⟩ "512|1023\r\n"
      = (⟨2, [mkRat 1 2, -1]⟩, []) := by
  constructor
  · intro level
    rcases thresholdCases level with h | h | h <;>
      (constructor <;> (simp only [SignificantlyDifferent]; rw [h]; decide))
  · decide

/-- C10: `processLine` is not atomic with respect to the cache.  The line
`"512|2000\r\n"` has an invalid second field, emits no events, yet slider 0's
cached value has already been overwritten from the sentinel `-1` to 0.50 (a
significant change); the subsequent grammatically valid line `"512|1023\r\n"`
then emits no event for slider 0 either. -/
theorem C10_partial_cache_update :
    (processLine ⟨false, "default"⟩ ⟨0, []⟩ "512|2000\r\n").2 = [] ∧
    (processLine ⟨false, "default"⟩ ⟨0, []⟩ "512|2000\r\n").1
      = ⟨2, [mkRat 1 2, -1]⟩ ∧
    SignificantlyDifferent (-1) (mkRat 1 2) "default" = true ∧
    (processLine ⟨false, "default"⟩ ⟨2, [mkRat 1 2, -1]⟩ "512|1023\r\n").2
      = [] := by
  decide

/-- C4 counterexample: with `old = 0.50` and `new = 0.525` (the `float32`
nearest 0.525) at the default noise level, `SignificantlyDifferent` returns
`false`, not `true` as claimed: `float32(0.525) = 4404019/2²³·½` lies about
2.4·10⁻⁸ below 0.525, so the computed difference 0.024999976… falls short of
the `float64` threshold 0.025. -/
theorem C4_counterexample :
    SignificantlyDifferent (f32 (mkRat 1 2)) (f32 (mkRat 21 40)) "default"
      = false := by
  decide

/-- C4 (amended): old=0.50, new=0.525 at the default level is NOT significant
(the float32 rounding of 0.525 leaves the difference just below 0.025);
old=0.50, new=0.524 is not significant; old=0.99, new=1.00 is significant at
every noise level (edge snap); old=1.00, new=1.00 is not significant at any
level. -/
theorem C4_significance_cases :
    SignificantlyDifferent (f32 (mkRat 1 2)) (f32 (mkRat 21 40)) "default"
        = false ∧
    SignificantlyDifferent (f32 (mkRat 1 2)) (f32 (mkRat 131 250)) "default"
        = false ∧
    (∀ level : String,
        SignificantlyDifferent (f32 (mkRat 99 100)) 1 level = true) ∧
    (∀ level : String, SignificantlyDifferent 1 1 level = false) := by
  refine ⟨by decide, by decide, ?_, ?_⟩ <;>
    (intro level
     ; rcases thresholdCases level with h | h | h <;>
        (simp only [SignificantlyDifferent]; rw [h]; decide))

/-- C3: with no user `slider_mapping` supplied (and no internal one), the
mapping actually built by `populateFromVipers` is EMPTY — the registered
viper default for `slider_mapping` is the empty map, so no slider is bound —
while the unused `defaultSliderMapping` variable (the intended default,
"slider 0 → [master]") holds exactly the single entry the claim describes. -/
theorem C3_default_mapping_empty :
    populateSliderMapping none none = ⟨[]⟩ ∧
    (populateSliderMapping none none).get 0 = none ∧
    defaultSliderMapping.entries = [(0, ["master"])] := by
  decide

/-- C6: merging user `{"0": ["a",""]}` with internal `{"0": ["b"]}` yields
index 0 → `["a","b"]`; in general, for a shared parsed index the result is
the user targets with empty strings dropped, followed by the internal
targets that are nonempty and not already present; and a key that
`strconv.Atoi` rejects contributes nothing from either source. -/
theorem C6_merge :
    (sliderMapFromConfigs [("0", ["a", ""])] [("0", ["b"])]).get 0
        = some ["a", "b"] ∧
    (∀ u i : List String,
        (sliderMapFromConfigs [("0", u)] [("0", i)]).get 0
          = some ((u.filter (· ≠ "")) ++
              (i.filter fun s =>
                s ≠ "" && !((u.filter (· ≠ "")).contains s)))) ∧
    (∀ key : String, ∀ uts its : List String, goAtoi key.data = none →
        sliderMapFromConfigs [(key, uts)] [(key, its)] = ⟨[]⟩) := by
  refine ⟨by decide, fun u i => rfl, fun key uts its h => ?_⟩
  simp [sliderMapFromConfigs, h]

/-- Closed witness for the hypothesis-bearing part of `C6_merge`: the key
`"x"` does not parse, and the merge of two configurations keyed by it is
empty. -/
theorem C6_merge_witness :
    goAtoi "x".data = none ∧
    sliderMapFromConfigs [("x", ["a"])] [("x", ["b"])] = ⟨[]⟩ :=
  ⟨by decide, C6_merge.2.2 "x" ["a"] ["b"] (by decide)⟩

/-- C2 counterexample: the registry does NOT retain its previous contents
when the discovery query fails.  Starting from a registry holding a
`chrome.exe` session, a forced refresh whose `GetAllSessions` fails leaves
the map empty (the map is cleared and released before the query), so the
previous contents are lost. -/
theorem C2_counterexample :
    refreshSessions ⟨⟨[]⟩, none⟩ (10 * 1000000000) none true
        ⟨[("chrome.exe", [⟨"chrome.exe", mkRat 1 2⟩])], 0, []⟩
      = some (⟨[], 10 * 1000000000, []⟩, true) ∧
    (⟨[], 10 * 1000000000, []⟩ : SessionMapState).m
      ≠ (⟨[("chrome.exe", [⟨"chrome.exe", mkRat 1 2⟩])], 0, []⟩ :
          SessionMapState).m := by
  decide

/-- C2 (amended): when `GetAllSessions` fails during a (here forced) refresh
the failure is logged and the registry is left EMPTY — `refreshSessions`
releases and clears the map before issuing the query, and the refresh
timestamp is still advanced and the unmapped list reset; afterwards looking
up any key returns not-found rather than a hard failure. -/
theorem C2_failed_refresh_clears :
    ∀ (env : SessionEnv) (now : ℤ) (st : SessionMapState),
      refreshSessions env now none true st = some (⟨[], now, []⟩, true) ∧
      (∀ key, sessionMapGet ⟨[], now, []⟩ key = none) :=
  fun _ _ _ => ⟨rfl, fun _ => rfl⟩

/-- `classifySessions` never touches the refresh timestamp. -/
theorem classify_lastRefresh (env : SessionEnv) :
    ∀ (ss : List Session) (st st' : SessionMapState),
      classifySessions env st ss = some st' →
      st'.lastSessionRefresh = st.lastSessionRefresh := by
  intro ss
  induction ss with
  | nil =>
    intro st st' h
    simp only [classifySessions, Option.some.injEq] at h
    rw [← h]
  | cons s rest ih =>
    intro st st' h
    simp only [classifySessions] at h
    rcases hm : sessionMapped env { st with m := sessionMapAdd st.m s } s with _ | b
    · rw [hm] at h; simp at h
    · rw [hm] at h
      cases b
      · have := ih _ _ h
        exact this
      · have := ih _ _ h
        exact this

/-- `getAndAddSessions` stamps the refresh timestamp with the current time,
whatever the discovery outcome. -/
theorem getAndAdd_lastRefresh (env : SessionEnv) (now : ℤ)
    (fetched : Option (List Session)) (st st1 : SessionMapState) (b : Bool)
    (h : getAndAddSessions env now fetched st = some (st1, b)) :
    st1.lastSessionRefresh = now := by
  rcases fetched with _ | ss
  · simp only [getAndAddSessions, Option.some.injEq, Prod.mk.injEq] at h
    rw [← h.1]
  · simp only [getAndAddSessions] at h
    rcases hc : classifySessions env
        { st with lastSessionRefresh := now, unmappedSessions := [] } ss with _ | st2
    · rw [hc] at h; simp at h
    · rw [hc] at h
      simp only [Option.some.injEq, Prod.mk.injEq] at h
      rw [← h.1]
      exact classify_lastRefresh env ss _ _ hc

/-- C7: two unforced refreshes whose second call falls within the 5-second
cooldown of the first perform exactly one discovery query: when the first
unforced call is past the cooldown and returns (no panic), it queried
(`b1 = true`), and a second unforced call within 5 seconds of it is a no-op
returning the state unchanged with no query; a forced refresh always
performs a discovery query, whatever the elapsed time. -/
theorem C7_refresh_cooldown :
    (∀ (env : SessionEnv) (st : SessionMapState) (t1 t2 : ℤ)
        (f1 f2 : Option (List Session)) (st1 : SessionMapState) (b1 : Bool),
        st.lastSessionRefresh + minTimeBetweenSessionRefreshes ≤ t1 →
        t2 < t1 + minTimeBetweenSessionRefreshes →
        refreshSessions env t1 f1 false st = some (st1, b1) →
        b1 = true ∧ refreshSessions env t2 f2 false st1 = some (st1, false)) ∧
    (∀ (env : SessionEnv) (st : SessionMapState) (t : ℤ)
        (fetched : Option (List Session)) (r : SessionMapState × Bool),
        refreshSessions env t fetched true st = some r → r.2 = true) := by
  constructor
  · intro env st t1 t2 f1 f2 st1 b1 h1 h2 h3
    have hd1 : decide (t1 < st.lastSessionRefresh + minTimeBetweenSessionRefreshes)
        = false := decide_eq_false (not_lt.mpr h1)
    simp only [refreshSessions, Bool.not_false, Bool.true_and, hd1,
      Bool.false_eq_true, if_false] at h3
    rcases hg : getAndAddSessions env t1 f1 (sessionMapClear st) with _ | p
    · rw [hg] at h3; simp at h3
    · rw [hg] at h3
      obtain ⟨st1', b'⟩ := p
      simp only [Option.some.injEq, Prod.mk.injEq] at h3
      obtain ⟨hst, hb⟩ := h3
      have hlr : st1.lastSessionRefresh = t1 := by
        rw [← hst]
        exact getAndAdd_lastRefresh env t1 f1 (sessionMapClear st) st1' b' hg
      refine ⟨hb.symm, ?_⟩
      have hd2 : decide (t2 < st1.lastSessionRefresh + minTimeBetweenSessionRefreshes)
          = true := decide_eq_true (by rw [hlr]; exact h2)
      rw [← hst]
      rw [← hst] at hd2
      simp [refreshSessions, hd2]
  · intro env st t fetched r h
    simp only [refreshSessions, Bool.not_true, Bool.false_and,
      Bool.false_eq_true, if_false] at h
    rcases hg : getAndAddSessions env t fetched (sessionMapClear st) with _ | p
    · rw [hg] at h; simp at h
    · rw [hg] at h
      obtain ⟨st1', b'⟩ := p
      simp only [Option.some.injEq] at h
      rw [← h]

/-- Closed witness for `C7_refresh_cooldown`: from a registry last refreshed
at time 0, an unforced refresh at 5s queries, a second unforced refresh at
6s (within 5s of the first) is a no-op, and a forced refresh at time 0
queries. -/
theorem C7_refresh_cooldown_witness :
    ((0 : ℤ) + minTimeBetweenSessionRefreshes ≤ 5000000000 ∧
      (6000000000 : ℤ) < 5000000000 + minTimeBetweenSessionRefreshes ∧
      (true = true ∧
        refreshSessions ⟨⟨[]⟩, none⟩ 6000000000 (some []) false
            ⟨[], 5000000000, []⟩ = some (⟨[], 5000000000, []⟩, false))) ∧
    ((⟨[], 0, []⟩, true) : SessionMapState × Bool).2 = true :=
  ⟨⟨by decide, by decide,
    C7_refresh_cooldown.1 ⟨⟨[]⟩, none⟩ ⟨[], 0, []⟩ 5000000000 6000000000
      (some []) (some []) ⟨[], 5000000000, []⟩ true (by decide) (by decide)
      (by decide)⟩,
   C7_refresh_cooldown.2 ⟨⟨[]⟩, none⟩ ⟨[], 3, []⟩ 0 (some [])
     (⟨[], 0, []⟩, true) (by decide)⟩

/-- On a target list in which lowercasing never introduces the `deej.`
prefix, the `sessionMapped` per-slider walk never panics and computes
exactly "some non-special target lowercases to the key". -/
theorem sessionMappedTargets_eq (env : SessionEnv) (st : SessionMapState)
    (key : String) :
    ∀ targets : List String,
      (∀ t ∈ targets, targetHasSpecialTransform (toLowerStr t) = true →
        targetHasSpecialTransform t = true) →
      sessionMappedTargets env st key targets
        = some (targets.any fun t =>
            !(targetHasSpecialTransform t) && toLowerStr t = key) := by
  intro targets
  induction targets with
  | nil => intro _; rfl
  | cons t rest ih =>
    intro hyp
    have hrest := fun x hx => hyp x (List.mem_cons_of_mem t hx)
    by_cases hs : targetHasSpecialTransform t = true
    · simp only [sessionMappedTargets, hs, if_true, List.any_cons,
        Bool.not_true, Bool.false_and, Bool.false_or]
      exact ih hrest
    · have hs' : targetHasSpecialTransform t = false := by
        simpa using hs
      have hsl : targetHasSpecialTransform (toLowerStr t) = false := by
        rcases Bool.eq_false_or_eq_true (targetHasSpecialTransform (toLowerStr t))
          with h | h
        · exact absurd (hyp t (List.mem_cons_self t rest) h) (by simp [hs'])
        · exact h
      have hres : resolveTarget env st t = [toLowerStr t] := by
        simp [resolveTarget, hsl]
      by_cases hk : toLowerStr t = key
      · simp [sessionMappedTargets, hs', hres, hk, List.any_cons]
      · simp only [sessionMappedTargets, hs', Bool.false_eq_true, if_false,
          hres, hk, List.any_cons, Bool.not_false, Bool.true_and]
        rw [ih hrest]
        simp [hk]

/-- Under the same no-uppercase-`deej.` condition on the whole mapping,
`sessionMapped` never panics and agrees with the specification's
characterization `claimMapped`, whatever the registry state. -/
theorem sessionMapped_eq (env : SessionEnv) (st : SessionMapState) (s : Session)
    (hyp : ∀ kv ∈ env.sliderMapping.entries, ∀ t ∈ kv.2,
      targetHasSpecialTransform (toLowerStr t) = true →
      targetHasSpecialTransform t = true) :
    sessionMapped env st s = some (claimMapped env.sliderMapping s.key) := by
  unfold sessionMapped claimMapped
  cases h1 : (["master", "system", "mic"].contains s.key) with
  | true => simp
  | false =>
    cases h2 : deviceSessionKeyPattern s.key with
    | true => simp
    | false =>
      simp only [Bool.false_eq_true, if_false, Bool.false_or]
      have aux : ∀ (entries : List (ℤ × List String)) (acc : Bool),
          (∀ kv ∈ entries, ∀ t ∈ kv.2,
            targetHasSpecialTransform (toLowerStr t) = true →
            targetHasSpecialTransform t = true) →
          entries.foldl
            (fun acc kv =>
              match acc with
              | none => none
              | some matchFound =>
                match sessionMappedTargets env st s.key kv.2 with
                | none => none
                | some f => some (matchFound || f))
            (some acc)
          = some (acc || entries.any (fun kv => kv.2.any fun t =>
              !(targetHasSpecialTransform t) && toLowerStr t = s.key)) := by
        intro entries
        induction entries with
        | nil => intro acc _; simp
        | cons kv rest ihe =>
          intro acc hypE
          have hkv := hypE kv (List.mem_cons_self kv rest)
          have hrest := fun x hx => hypE x (List.mem_cons_of_mem kv hx)
          simp only [List.foldl_cons, sessionMappedTargets_eq env st s.key kv.2 hkv]
          rw [ihe _ hrest]
          simp [List.any_cons, Bool.or_assoc]
      exact aux env.sliderMapping.entries false hyp

/-- Under the no-uppercase-`deej.` condition, the classification loop of
`getAndAddSessions` never panics, and appends to the unmapped list exactly
the sessions whose keys `claimMapped` rejects, in input order. -/
theorem classify_unmapped (env : SessionEnv)
    (hyp : ∀ kv ∈ env.sliderMapping.entries, ∀ t ∈ kv.2,
      targetHasSpecialTransform (toLowerStr t) = true →
      targetHasSpecialTransform t = true) :
    ∀ (ss : List Session) (st : SessionMapState),
      ∃ st', classifySessions env st ss = some st' ∧
        st'.unmappedSessions = st.unmappedSessions
          ++ (ss.filter fun s => !(claimMapped env.sliderMapping s.key)) := by
  intro ss
  induction ss with
  | nil => intro st; exact ⟨st, rfl, by simp⟩
  | cons s rest ih =>
    intro st
    by_cases hc : claimMapped env.sliderMapping s.key = true
    · obtain ⟨st', h1, h2⟩ := ih { st with m := sessionMapAdd st.m s }
      refine ⟨st', ?_, ?_⟩
      · simp only [classifySessions,
          sessionMapped_eq env { st with m := sessionMapAdd st.m s } s hyp, hc]
        exact h1
      · rw [h2]
        simp [List.filter_cons, hc]
    · have hc' : claimMapped env.sliderMapping s.key = false := by simpa using hc
      obtain ⟨st', h1, h2⟩ := ih
        { m := sessionMapAdd st.m s, lastSessionRefresh := st.lastSessionRefresh,
          unmappedSessions := st.unmappedSessions ++ [s] }
      refine ⟨st', ?_, ?_⟩
      · simp only [classifySessions,
          sessionMapped_eq env { st with m := sessionMapAdd st.m s } s hyp, hc']
        exact h1
      · rw [h2]
        simp [List.filter_cons, hc']

/-- C9: after a successful population (`getAndAddSessions` on the session
list returned by discovery), resolving `deej.unmapped` yields exactly the
keys of the sessions recorded as unmapped at that population: those whose
key is not a reserved name (`master`/`system`/`mic`), does not match the
device display-name pattern `NAME (DETAIL)`, and does not equal the
lowercasing of any non-`deej.`-prefixed target appearing anywhere in the
current `SliderMapping` — in discovery order.  (Hypothesis: lowercasing a
configured target never introduces the `deej.` prefix; a target like
`"DEEJ.current"` would make the Go code index `[0]` of a dynamic resolution
and is outside this claim.) -/
theorem C9_unmapped_resolution :
    ∀ (env : SessionEnv) (now : ℤ) (ss : List Session) (st : SessionMapState),
      (∀ kv ∈ env.sliderMapping.entries, ∀ t ∈ kv.2,
          targetHasSpecialTransform (toLowerStr t) = true →
          targetHasSpecialTransform t = true) →
      (getAndAddSessions env now (some ss) st).map
          (fun p => resolveTarget env p.1 "deej.unmapped")
        = some ((ss.filter fun s => !(claimMapped env.sliderMapping s.key)).map
            (fun s => s.key)) := by
  intro env now ss st hyp
  obtain ⟨st', hcl, hun⟩ := classify_unmapped env hyp ss
    { st with lastSessionRefresh := now, unmappedSessions := [] }
  simp only [getAndAddSessions, hcl, Option.map_some']
  have hrt : resolveTarget env st' "deej.unmapped" = getUnmappedSessionKeys st' :=
    rfl
  rw [hrt, getUnmappedSessionKeys, hun]
  simp

/-- Closed witness for `C9_unmapped_resolution`: mapping
`{0: ["master"], 1: ["Chrome.exe"]}` and discovered sessions `chrome.exe`,
`master`, `spotify.exe`, `speakers (realtek audio)`; only `spotify.exe` is
unmapped. -/
theorem C9_unmapped_resolution_witness :
    (∀ kv ∈ (SliderMap.mk [(0, ["master"]), (1, ["Chrome.exe"])]).entries,
        ∀ t ∈ kv.2,
        targetHasSpecialTransform (toLowerStr t) = true →
        targetHasSpecialTransform t = true) ∧
    (getAndAddSessions ⟨⟨[(0, ["master"]), (1, ["Chrome.exe"])]⟩, none⟩ 7
        (some [⟨"chrome.exe", 1⟩, ⟨"master", 1⟩, ⟨"spotify.exe", mkRat 1 2⟩,
          ⟨"speakers (realtek audio)", 1⟩]) ⟨[], 0, []⟩).map
        (fun p => resolveTarget ⟨⟨[(0, ["master"]), (1, ["Chrome.exe"])]⟩, none⟩
          p.1 "deej.unmapped")
      = some ["spotify.exe"] :=
  ⟨by decide,
   (C9_unmapped_resolution ⟨⟨[(0, ["master"]), (1, ["Chrome.exe"])]⟩, none⟩ 7
       [⟨"chrome.exe", 1⟩, ⟨"master", 1⟩, ⟨"spotify.exe", mkRat 1 2⟩,
         ⟨"speakers (realtek audio)", 1⟩] ⟨[], 0, []⟩ (by decide)).trans
     (by decide)⟩

/-- Batteries' computable `Rat.floor` agrees with the mathematical floor. -/
theorem ratFloor_eq (q : ℚ) : q.floor = ⌊q⌋ :=
  (Rat.floor_def' q).trans Rat.floor_def.symm

/-- Does the `float64` floor computed by `NormalizeScalar` for one raw value
agree with the exact-arithmetic floor `⌊raw·100/1023⌋`?  (Checked for every
raw in range by `all_floorMatches`.) -/
def floorMatches (raw : ℕ) : Bool :=
  (f64 (qmul (f32 (qdiv (mkRat raw 1) 1023)) 100)).floor
    == (mkRat (raw * 100) 1023).floor

set_option maxRecDepth 100000 in
set_option maxHeartbeats 4000000 in
/-- For every raw value in 0..1023 the truncation step of the normalization
computes the exact two-decimal floor: the float roundings never push
`(raw/1023)·100` across an integer boundary. -/
theorem all_floorMatches : (List.range 1024).all floorMatches = true := by
  decide

/-- The float image of the two-decimal value `k/100`: `float32` of the
`float64` quotient, as produced by `NormalizeScalar`. -/
def qtrunc2 (k : ℤ) : ℚ := f32 (f64 (mkRat k 100))

set_option maxRecDepth 100000 in
set_option maxHeartbeats 1000000 in
/-- The float image of `k/100` lies in `[0, 1]` for every `k` in 0..100. -/
theorem qtrunc2_bounds :
    (List.range 101).all
      (fun k => qle 0 (qtrunc2 k) && qle (qtrunc2 k) 1) = true := by
  decide

/-- The exact two-decimal floor of a raw slider value lies in 0..100. -/
theorem floor_bounds (raw : ℕ) (h : raw ≤ 1023) :
    0 ≤ ⌊(mkRat (raw * 100) 1023 : ℚ)⌋ ∧ ⌊(mkRat (raw * 100) 1023 : ℚ)⌋ ≤ 100 := by
  have hq : (mkRat (raw * 100) 1023 : ℚ) = ((raw : ℚ) * 100) / 1023 := by
    rw [Rat.mkRat_eq_div]; push_cast; ring
  constructor
  · apply Int.floor_nonneg.mpr
    rw [hq]; positivity
  · have h100 : (mkRat (raw * 100) 1023 : ℚ) ≤ 100 := by
      rw [hq, div_le_iff₀ (by norm_num)]
      nlinarith [show ((raw : ℚ)) ≤ 1023 from by exact_mod_cast h]
    calc ⌊(mkRat (raw * 100) 1023 : ℚ)⌋ ≤ ⌊(100 : ℚ)⌋ := Int.floor_le_floor h100
      _ = 100 := by norm_num

/-- C5: for every raw in 0..1023 the normalization equals the float image of
`⌊raw·100/1023⌋ / 100` — the value truncated (not rounded) to two decimal
places — and lies in `[0, 1]`; in particular raw = 511 truncates to 49
hundredths (0.49), not 0.50. -/
theorem C5_normalization :
    (∀ raw : ℕ, raw ≤ 1023 →
        normalizeRaw raw = qtrunc2 ⌊(mkRat (raw * 100) 1023 : ℚ)⌋ ∧
        0 ≤ normalizeRaw raw ∧ normalizeRaw raw ≤ 1) ∧
    ⌊(mkRat (511 * 100) 1023 : ℚ)⌋ = 49 ∧
    normalizeRaw 511 = qtrunc2 49 ∧ normalizeRaw 511 ≠ qtrunc2 50 := by
  have hfm : ∀ raw : ℕ, raw < 1024 → floorMatches raw = true := by
    intro raw hr
    exact List.all_eq_true.mp all_floorMatches raw (List.mem_range.mpr hr)
  have main : ∀ raw : ℕ, raw ≤ 1023 →
      normalizeRaw raw = qtrunc2 ⌊(mkRat (raw * 100) 1023 : ℚ)⌋ := by
    intro raw h
    have hf := hfm raw (by omega)
    rw [floorMatches] at hf
    have heq : (f64 (qmul (f32 (qdiv (mkRat raw 1) 1023)) 100)).floor
        = (mkRat (raw * 100) 1023).floor := eq_of_beq hf
    unfold normalizeRaw NormalizeScalar qtrunc2
    rw [heq, ratFloor_eq]
  have bounds : ∀ raw : ℕ, raw ≤ 1023 →
      0 ≤ normalizeRaw raw ∧ normalizeRaw raw ≤ 1 := by
    intro raw h
    rw [main raw h]
    obtain ⟨hk0, hk1⟩ := floor_bounds raw h
    have hmem : (⌊(mkRat (raw * 100) 1023 : ℚ)⌋).toNat ∈ List.range 101 :=
      List.mem_range.mpr (by omega)
    have hb := List.all_eq_true.mp qtrunc2_bounds _ hmem
    rw [Bool.and_eq_true] at hb
    have h0 : (0 : ℚ) ≤ qtrunc2 ((⌊(mkRat (raw * 100) 1023 : ℚ)⌋).toNat : ℤ) :=
      (qle_iff _ _).mp hb.1
    have h1 : qtrunc2 ((⌊(mkRat (raw * 100) 1023 : ℚ)⌋).toNat : ℤ) ≤ 1 :=
      (qle_iff _ _).mp hb.2
    rw [Int.toNat_of_nonneg hk0] at h0 h1
    exact ⟨h0, h1⟩
  refine ⟨fun raw h => ⟨main raw h, bounds raw h⟩, ?_, by decide, by decide⟩
  rw [← ratFloor_eq]
  decide

/-- Closed witness for the hypothesis-bearing part of `C5_normalization`:
the normalization of raw = 511. -/
theorem C5_normalization_witness :
    511 ≤ 1023 ∧
    (normalizeRaw 511 = qtrunc2 ⌊(mkRat (511 * 100) 1023 : ℚ)⌋ ∧
      0 ≤ normalizeRaw 511 ∧ normalizeRaw 511 ≤ 1) :=
  ⟨by decide, C5_normalization.1 511 (by decide)⟩
